import Mathlib

/-
  Verification development for the field-extraction core of the AutoAgile
  repository (services field-extraction-service.ts and jira-field-service.ts).

  The TypeScript source is shallowly embedded below:
  * plain string manipulation is modelled over `List Char` / `String`
    (JavaScript `toLowerCase`, `includes`, `trim` restricted to the ASCII
    inputs the service handles);
  * the JavaScript regular expressions appearing in the source are encoded
    as terms of a small regex language `RE` together with a backtracking
    matcher that reproduces the leftmost-match, ordered-alternative, greedy
    semantics of the JavaScript engine (a fuel argument bounds star
    iterations; fuel `length + 1` suffices because every star body in the
    encoded patterns consumes at least one character per iteration);
  * confidences are modelled as rationals;
  * external effects (the AI provider call, `JSON.parse`, the system clock)
    are passed in as parameters: the AI extractor receives the raw response
    text plus a parse function, the policy engine receives the per-field AI
    extraction outcome as an oracle, and `new Date()` becomes explicit
    `nowYear` / `month0` (zero-based month, as `Date.getMonth`) arguments.
-/

set_option maxRecDepth 20000

/-- ASCII lowercasing of one character, modelling the effect of JavaScript
`String.prototype.toLowerCase` on the ASCII text this service manipulates. -/
def lcChar (c : Char) : Char :=
  if 'A' ≤ c ∧ c ≤ 'Z' then Char.ofNat (c.toNat + 32) else c

/-- ASCII uppercasing of one character (JavaScript `toUpperCase` on ASCII). -/
def ucChar (c : Char) : Char :=
  if 'a' ≤ c ∧ c ≤ 'z' then Char.ofNat (c.toNat - 32) else c

/-- JavaScript `s.toLowerCase()` (ASCII). -/
def strLower (s : String) : String := ⟨s.data.map lcChar⟩

/-- JavaScript word character, the `\w` class: `[A-Za-z0-9_]`. -/
def isWordChar (c : Char) : Bool := c.isAlpha || c.isDigit || c == '_'

/-- JavaScript whitespace as matched by `\s` (ASCII part). -/
def isSpaceChar (c : Char) : Bool :=
  c == ' ' || c == '\t' || c == '\n' || c == '\r' || c == Char.ofNat 11 || c == Char.ofNat 12

/-- Decides whether the first list is a prefix of the second. -/
def isPrefixL : List Char → List Char → Bool
  | [], _ => true
  | _ :: _, [] => false
  | a :: as, b :: bs => a == b && isPrefixL as bs

/-- JavaScript `hay.includes(needle)` over char lists. -/
def containsSub (needle : List Char) : List Char → Bool
  | [] => isPrefixL needle []
  | c :: t => isPrefixL needle (c :: t) || containsSub needle t

/-- JavaScript `s.includes(sub)`. -/
def strContains (s sub : String) : Bool := containsSub sub.data s.data

/-- Regex abstract syntax for the JavaScript patterns used by the service.
Character classes are predicates, literals come in case-sensitive (`lit`)
and case-insensitive (`liti`, stored lowercase) forms, `wb` is the word
boundary `\b`, and `grp` is a numbered capture group. -/
inductive RE where
  | eps
  | cls (p : Char → Bool)
  | lit (s : List Char)
  | liti (s : List Char)
  | seq (a b : RE)
  | alt (a b : RE)
  | star (a : RE)
  | opt (a : RE)
  | wb
  | grp (n : Nat) (a : RE)

/-- Capture environment: most recent capture of each group first. -/
abbrev Caps := List (Nat × List Char)

/-- Matches a case-sensitive literal, returning the extended reversed
prefix and the remaining input. -/
def litMatch : List Char → List Char → List Char → Option (List Char × List Char)
  | [], pre, s => some (pre, s)
  | e :: es, pre, s =>
    match s with
    | [] => none
    | c :: cs => if c == e then litMatch es (c :: pre) cs else none

/-- Matches a case-insensitive literal (expected characters given in
lowercase, input compared through `lcChar`). -/
def litiMatch : List Char → List Char → List Char → Option (List Char × List Char)
  | [], pre, s => some (pre, s)
  | e :: es, pre, s =>
    match s with
    | [] => none
    | c :: cs => if lcChar c == e then litiMatch es (c :: pre) cs else none

/-- Word-boundary test between the reversed prefix and the rest. -/
def wordBoundary (pre s : List Char) : Bool :=
  (match pre.head? with | none => false | some c => isWordChar c)
    != (match s.head? with | none => false | some c => isWordChar c)

/-- Greedy Kleene-star loop over a submatcher `m`: try one
progress-making iteration of the body first (greedy), then the empty
match. The fuel bounds iterations; since the body is required to consume
at least one character per iteration (as every starred subpattern in this
file does), fuel `s.length + 1` makes the loop exact. -/
def starRun (m : List Char → List Char → Caps → List (List Char × List Char × Caps)) :
    Nat → List Char → List Char → Caps → List (List Char × List Char × Caps)
  | 0, pre, s, k => [(pre, s, k)]
  | fuel + 1, pre, s, k =>
    (((m pre s k).filter (fun r => r.2.1.length < s.length)).map
      (fun r => starRun m fuel r.1 r.2.1 r.2.2)).flatten ++ [(pre, s, k)]

/-- Backtracking matcher. `mrun re pre s k` returns, in JavaScript
priority order (first alternative first, greedy repetition first), every
way `re` can match a prefix of `s`; each result is the reversed consumed
text, the rest of the input and the capture environment. `pre` is the
reversed text before the match position (used for `\b`). -/
def mrun : RE → List Char → List Char → Caps → List (List Char × List Char × Caps)
  | .eps, pre, s, k => [(pre, s, k)]
  | .cls p, pre, s, k =>
    match s with
    | [] => []
    | c :: cs => if p c then [(c :: pre, cs, k)] else []
  | .lit l, pre, s, k =>
    match litMatch l pre s with
    | some (p2, s2) => [(p2, s2, k)]
    | none => []
  | .liti l, pre, s, k =>
    match litiMatch l pre s with
    | some (p2, s2) => [(p2, s2, k)]
    | none => []
  | .seq a b, pre, s, k =>
    ((mrun a pre s k).map (fun r => mrun b r.1 r.2.1 r.2.2)).flatten
  | .alt a b, pre, s, k => mrun a pre s k ++ mrun b pre s k
  | .star a, pre, s, k => starRun (mrun a) (s.length + 1) pre s k
  | .opt a, pre, s, k => mrun a pre s k ++ [(pre, s, k)]
  | .wb, pre, s, k => if wordBoundary pre s then [(pre, s, k)] else []
  | .grp n a, pre, s, k =>
    (mrun a pre s k).map
      (fun r => (r.1, r.2.1, (n, (r.1.take (r.1.length - pre.length)).reverse) :: r.2.2))

/-- First (highest-priority) match of `re` exactly at the current position;
the whole match is recorded as capture group `0`. -/
def matchTop (re : RE) (pre s : List Char) : Option (List Char × List Char × Caps) :=
  (mrun (.grp 0 re) pre s []).head?

/-- JavaScript `String.prototype.match` without the `g` flag: scan positions
left to right and return the first match. -/
def searchFrom (re : RE) : List Char → List Char → Option (List Char × List Char × Caps)
  | pre, [] => matchTop re pre []
  | pre, c :: cs =>
    match matchTop re pre (c :: cs) with
    | some r => some r
    | none => searchFrom re (c :: pre) cs

/-- Captures of the first match of `re` in `s`, if any. -/
def firstMatch (re : RE) (s : List Char) : Option Caps :=
  (searchFrom re [] s).map (fun r => r.2.2)

/-- Reads capture group `n` out of a capture environment. -/
def getCap (n : Nat) (k : Caps) : Option String :=
  (k.find? (fun p => p.1 == n)).map (fun p => ⟨p.2⟩)

/-- Successive non-overlapping matches, as produced by a JavaScript global
regex via `matchAll` / repeated `exec` (an empty match advances by one). -/
def allMatchesFrom (re : RE) : Nat → List Char → List Char → List Caps
  | 0, _, _ => []
  | fuel + 1, pre, s =>
    match searchFrom re pre s with
    | none => []
    | some (p2, s2, k) =>
      if ((getCap 0 k).getD "").length ≠ 0 then k :: allMatchesFrom re fuel p2 s2
      else
        match s2 with
        | [] => [k]
        | c :: cs => k :: allMatchesFrom re fuel (c :: p2) cs

/-- All matches of a global regex over `s`. -/
def allMatches (re : RE) (s : List Char) : List Caps :=
  allMatchesFrom re (s.length + 1) [] s

/-- Builds a case-sensitive literal regex from a string. -/
def reStr (s : String) : RE := .lit s.data

/-- Builds a case-insensitive literal regex (literal given in lowercase). -/
def reStrI (s : String) : RE := .liti s.data

/-- Sequencing of a list of regexes. -/
def reSeq (rs : List RE) : RE := rs.foldr RE.seq .eps

/-- Ordered alternation of a list of regexes. -/
def reAlt : List RE → RE
  | [] => .cls (fun _ => false)
  | [r] => r
  | r :: rs => .alt r (reAlt rs)

/-- Exactly `n` repetitions. -/
def reRep : Nat → RE → RE
  | 0, _ => .eps
  | n + 1, r => .seq r (reRep n r)

/-- One-or-more repetitions (`+`), greedy. -/
def rePlus (r : RE) : RE := .seq r (.star r)

/-- The `\d` class. -/
def digitC : RE := .cls Char.isDigit

/-- The `\s*` fragment. -/
def spaceStar : RE := .star (.cls isSpaceChar)

/-- The `[1-4]` class. -/
def d14 : RE := .cls (fun c => c == '1' || c == '2' || c == '3' || c == '4')

/-
  Data model (types.ts / jira-field-service.ts).
  Allowed values are modelled as strings (the string arm of the source's
  `(string | JiraFieldOption)[]` union, which is the shape every code path
  exercised by the claims consumes).
-/

/-- One normalized target-system field (interface JiraField). -/
structure JiraField where
  id : String
  name : String
  type : String
  required : Bool
  allowedValues : Option (List String) := none
  description : Option String := none
deriving DecidableEq, Repr

/-- Extracted values: a scalar string, an integer (story points), or an
array of strings (multiselect / labels). -/
inductive JValue where
  | s (v : String)
  | n (v : Int)
  | arr (vs : List String)
deriving DecidableEq, Repr

/-- Result entry of the extractors (interface ExtractedFieldValue). -/
structure ExtractedFieldValue where
  fieldId : String
  value : JValue
  confidence : ℚ
  extractionMethod : String
deriving DecidableEq, Repr

/-- Per-field extraction policy (FieldExtractionConfig). -/
structure FieldExtractionConfig where
  jiraFieldId : String
  extractionEnabled : Bool
  extractionMethod : String
  extractionMode : String
  confidenceThreshold : ℚ
deriving DecidableEq, Repr

/-- Global fallback policy (ExtractionPreferences). -/
structure ExtractionPreferences where
  defaultMethod : String
  globalConfidenceThreshold : ℚ
  requireConfirmationForAll : Bool
deriving DecidableEq, Repr

/-- One proposed value with hint (interface ExtractionCandidate). -/
structure ExtractionCandidate where
  fieldId : String
  value : JValue
  confidence : ℚ
  extractionMethod : String
  suggestion : String
deriving DecidableEq, Repr

/-
  Confidence constants of the source, as rationals in reduced form (built
  with the raw constructor so that kernel reduction can evaluate
  comparisons on them).
-/

/-- The confidence value 0.4. -/
def conf04 : ℚ := ⟨2, 5, by norm_num, by norm_num⟩

/-- The threshold value 0.5 of the AI extraction filter. -/
def conf05 : ℚ := ⟨1, 2, by norm_num, by norm_num⟩

/-- The confidence value 0.6. -/
def conf06 : ℚ := ⟨3, 5, by norm_num, by norm_num⟩

/-- The confidence value 0.7. -/
def conf07 : ℚ := ⟨7, 10, by norm_num, by norm_num⟩

/-- The confidence value 0.8. -/
def conf08 : ℚ := ⟨4, 5, by norm_num, by norm_num⟩

/-- The confidence value 0.9. -/
def conf09 : ℚ := ⟨9, 10, by norm_num, by norm_num⟩

/-
  Pattern Extractor (extractWithPatterns and helpers).
-/

/-- The priority vocabulary regex
`/\b(highest|high|medium|low|lowest|critical|major|minor|trivial)\b/`,
applied by the source to the lowercased description. -/
def priorityRe : RE :=
  reSeq [.wb,
    .grp 1 (reAlt [reStr "highest", reStr "high", reStr "medium", reStr "low",
      reStr "lowest", reStr "critical", reStr "major", reStr "minor", reStr "trivial"]),
    .wb]

/-- Priority synonym table of mapPriorityValue, keyed by canonical name. -/
def priorityMap (k : String) : Option (List String) :=
  if k == "highest" then some ["highest", "critical", "1"]
  else if k == "high" then some ["high", "major", "2"]
  else if k == "medium" then some ["medium", "normal", "3"]
  else if k == "low" then some ["low", "minor", "4"]
  else if k == "lowest" then some ["lowest", "trivial", "5"]
  else none

/-- Inner loop of mapPriorityValue: first allowed value whose lowercase form
contains one of the mapped synonyms, in synonym order. -/
def findMapping (vs : List String) : List String → Option String
  | [] => none
  | m :: ms =>
    match vs.find? (fun v => strContains (strLower v) (strLower m)) with
    | some v => some v
    | none => findMapping vs ms

/-- mapPriorityValue: maps a matched priority token onto the allowed values
through the synonym table, falling back to the raw token. -/
def mapPriorityValue (priority : String) (allowedValues : Option (List String)) : String :=
  match allowedValues with
  | none => priority
  | some vs =>
    let mappings := (priorityMap (strLower priority)).getD [priority]
    (findMapping vs mappings).getD priority

/-- Priority branch of extractWithPatterns (confidence 0.8). -/
def priorityValue (lowd : String) (av : Option (List String)) : Option (JValue × ℚ) :=
  match firstMatch priorityRe lowd.data with
  | none => none
  | some caps =>
    match getCap 1 caps with
    | none => none
    | some w => some (.s (mapPriorityValue w av), conf08)

/-- Quarter pattern `/\b(q[1-4])\s*(\d{4})\b/i`. The source matches the
quarter patterns with the `i` flag against the RAW description, so the
captures keep their original case (the case-insensitive literals below
consume without changing case); normalizeQuarterTok then applies the
case-SENSITIVE word conversions of the source to those raw captures. -/
def qp1 : RE := reSeq [.wb, .grp 1 (.seq (reStrI "q") d14), spaceStar, .grp 2 (reRep 4 digitC), .wb]

/-- Quarter pattern `/\bquarter\s*([1-4])\s*(\d{4})\b/i`. -/
def qp2 : RE := reSeq [.wb, reStrI "quarter", spaceStar, .grp 1 d14, spaceStar, .grp 2 (reRep 4 digitC), .wb]

/-- Quarter pattern `/\b([1-4])(?:st|nd|rd|th)\s*quarter\s*(\d{4})\b/i`. -/
def qp3 : RE := reSeq [.wb, .grp 1 d14,
  reAlt [reStrI "st", reStrI "nd", reStrI "rd", reStrI "th"],
  spaceStar, reStrI "quarter", spaceStar, .grp 2 (reRep 4 digitC), .wb]

/-- Quarter pattern `/\b(first|second|third|fourth)\s*quarter\s*(\d{4})\b/i`. -/
def qp4 : RE := reSeq [.wb,
  .grp 1 (reAlt [reStrI "first", reStrI "second", reStrI "third", reStrI "fourth"]),
  spaceStar, reStrI "quarter", spaceStar, .grp 2 (reRep 4 digitC), .wb]

/-- Quarter pattern `/\b(q[1-4])\b/i`. -/
def qp5 : RE := reSeq [.wb, .grp 1 (.seq (reStrI "q") d14), .wb]

/-- Quarter pattern `/\bquarter\s*([1-4])\b/i`. -/
def qp6 : RE := reSeq [.wb, reStrI "quarter", spaceStar, .grp 1 d14, .wb]

/-- The ordered quarterPatterns array. -/
def quarterPatterns : List RE := [qp1, qp2, qp3, qp4, qp5, qp6]

/-- Word-number conversion and `q` stripping applied to the captured
quarter token inside the quarter loop. As in the source, the word
conversions compare with `===` and are case-sensitive on the raw-case
capture (so "First" is NOT converted), while the `q` strip test
lowercases first (`quarter.toLowerCase().startsWith(q)`). -/
def normalizeQuarterTok (q : String) : String :=
  let q1 := if q == "first" then "1"
    else if q == "second" then "2"
    else if q == "third" then "3"
    else if q == "fourth" then "4" else q
  if isPrefixL ['q'] (strLower q1).data then q1.drop 1 else q1

/-- Builds the candidate value, mirroring
`` `Q${quarter} ${year}` `` with `year = match[2] || currentYear`. -/
def quarterValueOf (caps : Caps) (curYearStr : String) : String :=
  let quarter := (getCap 1 caps).getD ""
  let year := match getCap 2 caps with
    | some y => if y == "" then curYearStr else y
    | none => curYearStr
  "Q" ++ normalizeQuarterTok quarter ++ " " ++ year

/-- JavaScript `field.allowedValues?.includes(v)`. -/
def avIncludes (av : Option (List String)) (v : String) : Bool :=
  match av with
  | none => false
  | some vs => vs.contains v

/-- Candidate quarter value of one pattern at the first match over the
raw description, if any. -/
def scanHit (p : RE) (s : List Char) (curYearStr : String) : Option String :=
  (firstMatch p s).map (fun caps => quarterValueOf caps curYearStr)

/-- The for-loop over quarterPatterns: take the first pattern whose first
match yields a value present in the allowed values. -/
def quarterScanLoop (s : List Char) (av : Option (List String)) (cy : String) :
    List RE → Option String
  | [] => none
  | p :: ps =>
    match scanHit p s cy with
    | none => quarterScanLoop s av cy ps
    | some qv => if avIncludes av qv then some qv else quarterScanLoop s av cy ps

/-- The bare-year regex `/\b(\d{4})\b/`, applied to the raw description. -/
def yearRe : RE := reSeq [.wb, .grp 1 (reRep 4 digitC), .wb]

/-- First 4-digit token of the description, if any. -/
def findYear (d : String) : Option String :=
  (firstMatch yearRe d.data).bind (getCap 1)

/-- `Math.ceil((getMonth() + 1) / 3)` with `month0 = getMonth()`. -/
def currentQuarterOf (month0 : Nat) : Nat := (month0 + 1 + 2) / 3

/-- Quarter branch of extractWithPatterns: explicit quarter patterns at
confidence 0.8, then current-quarter with a found year at 0.6, then
current quarter and year at 0.4; every candidate must be among the
allowed values. -/
def quarterExtract (nowYear month0 : Nat) (d : String) (av : Option (List String)) :
    Option (String × ℚ) :=
  let cy := Nat.repr nowYear
  match quarterScanLoop d.data av cy quarterPatterns with
  | some qv => some (qv, conf08)
  | none =>
    let cq := Nat.repr (currentQuarterOf month0)
    match findYear d with
    | some y =>
      let qv := "Q" ++ cq ++ " " ++ y
      if avIncludes av qv then some (qv, conf06)
      else
        let qv2 := "Q" ++ cq ++ " " ++ cy
        if avIncludes av qv2 then some (qv2, conf04) else none
    | none =>
      let qv2 := "Q" ++ cq ++ " " ++ cy
      if avIncludes av qv2 then some (qv2, conf04) else none

/-- Story-points regex `/\b(\d+)\s*(?:story\s*)?points?\b/i` (matched over
the lowercased description). -/
def storyPointsRe : RE :=
  reSeq [.wb, .grp 1 (rePlus digitC), spaceStar,
    .opt (reSeq [reStr "story", spaceStar]), reStr "point", .opt (reStr "s"), .wb]

/-- JavaScript `parseInt` on an all-digit capture. -/
def parseNatDigits (s : String) : Nat :=
  s.data.foldl (fun a c => a * 10 + (c.toNat - 48)) 0

/-- Story-points branch of extractWithPatterns (confidence 0.9). -/
def storyPointsValue (lowd : String) : Option (JValue × ℚ) :=
  ((firstMatch storyPointsRe lowd.data).bind (getCap 1)).map
    (fun ds => (.n (parseNatDigits ds : Int), conf09))

/-- Component branch: first allowed value whose nonempty lowercase form
occurs in the lowercased description (confidence 0.7). -/
def componentValue (lowd : String) (av : Option (List String)) : Option (JValue × ℚ) :=
  match av with
  | none => none
  | some vs =>
    (vs.find? (fun v => !(strLower v == "") && strContains lowd (strLower v))).map
      (fun v => (.s v, conf07))

/-- Epic-link regex `/\b([A-Z]+-\d+)\b/`: note the source applies this
case-sensitive uppercase pattern to the LOWERCASED description. -/
def epicRe : RE :=
  reSeq [.wb,
    .grp 1 (reSeq [rePlus (.cls (fun c => 'A' ≤ c && c ≤ 'Z')), reStr "-", rePlus digitC]),
    .wb]

/-- Epic-link branch of extractWithPatterns (confidence 0.8). -/
def epicValue (lowd : String) : Option (JValue × ℚ) :=
  ((firstMatch epicRe lowd.data).bind (getCap 1)).map (fun t => (.s t, conf08))

/-- Label class `[a-zA-Z]`. -/
def asciiLetterC : RE := .cls Char.isAlpha

/-- Label class `[a-zA-Z0-9]`. -/
def alnumC : RE := .cls (fun c => c.isAlpha || c.isDigit)

/-- Label class `[a-zA-Z0-9_-]`. -/
def wordDashC : RE := .cls (fun c => c.isAlpha || c.isDigit || c == '_' || c == '-')

/-- Label pattern `/\b(20\d{2}[qQ]\d[a-zA-Z]*)\b/g`. -/
def labelRe1 : RE :=
  reSeq [.wb,
    .grp 1 (reSeq [reStr "20", reRep 2 digitC, .cls (fun c => c == 'q' || c == 'Q'),
      digitC, .star asciiLetterC]),
    .wb]

/-- Label pattern `/\b([a-z]+-[a-z0-9-]+)\b/g`. -/
def labelRe2 : RE :=
  reSeq [.wb,
    .grp 1 (reSeq [rePlus (.cls (fun c => 'a' ≤ c && c ≤ 'z')), reStr "-",
      rePlus (.cls (fun c => ('a' ≤ c && c ≤ 'z') || c.isDigit || c == '-'))]),
    .wb]

/-- Label pattern `/(?:label|tag|#)\s*[:\s]*([a-zA-Z0-9_-]+)/gi`. -/
def labelRe3 : RE :=
  reSeq [reAlt [reStrI "label", reStrI "tag", reStr "#"], spaceStar,
    .star (.cls (fun c => c == ':' || isSpaceChar c)), .grp 1 (rePlus wordDashC)]

/-- Label pattern `/\b([a-zA-Z0-9]{3,}(?:[a-zA-Z0-9_-]*[a-zA-Z0-9])?)\b/g`. -/
def labelRe4 : RE :=
  reSeq [.wb,
    .grp 1 (reSeq [reRep 3 alnumC, .star alnumC, .opt (reSeq [.star wordDashC, alnumC])]),
    .wb]

/-- The labelPatterns array, in source order. -/
def labelPatterns : List RE := [labelRe1, labelRe2, labelRe3, labelRe4]

/-- The stop-word set of isCommonWord. -/
def commonWords : List String :=
  ["the", "and", "for", "are", "but", "not", "you", "all", "can", "had", "her", "was",
   "one", "our", "out", "day", "get", "has", "him", "his", "how", "its", "may", "new",
   "now", "old", "see", "two", "way", "who", "boy", "did", "man", "end", "why", "let",
   "put", "say", "she", "too", "use",
   "that", "with", "have", "this", "will", "your", "from", "they", "know", "want",
   "been", "good", "much", "some", "time", "very", "when", "come", "here", "just",
   "like", "long", "make", "many", "over", "such", "take", "than", "them", "well",
   "were", "what",
   "would", "there", "could", "other", "after", "first", "never", "these", "think",
   "where", "being", "every", "great", "might", "shall", "still", "those", "under",
   "while", "years", "before", "should", "through", "system", "process", "project",
   "service", "feature", "design", "development", "implementation", "management",
   "application", "solution"]

/-- isCommonWord: membership of the lowercased word in the stop-word set. -/
def isCommonWord (word : String) : Bool := commonWords.contains (strLower word)

/-- Ordered-set insertion used for the label Set (insertion order kept). -/
def dedupInsert (l : List String) (x : String) : List String :=
  if l.contains x then l else l ++ [x]

/-- Label accumulation loop: all four global patterns over the raw
description; each group-1 capture that is nonempty, not a stop word and at
least 3 characters long is added, lowercased, to the ordered set. -/
def collectLabels (d : String) : List String :=
  labelPatterns.foldl (fun acc p =>
    ((allMatches p d.data).filterMap (getCap 1)).foldl (fun acc2 label =>
      if !(label == "") && !isCommonWord label && 3 ≤ label.length then
        dedupInsert acc2 (strLower label)
      else acc2) acc) []

/-- Labels branch of extractWithPatterns (array value, confidence 0.7). -/
def labelsValue (d : String) : Option (JValue × ℚ) :=
  let ls := collectLabels d
  if ls == [] then none else some (.arr ls, conf07)

/-- Internal-indicator regex
`/\b(internal|private|confidential|company|team|staff)\b/`. -/
def internalRe : RE :=
  reSeq [.wb,
    .grp 1 (reAlt [reStr "internal", reStr "private", reStr "confidential",
      reStr "company", reStr "team", reStr "staff"]),
    .wb]

/-- External-indicator regex
`/\b(external|public|customer|client|visible|roadmap|showcase)\b/`. -/
def externalRe : RE :=
  reSeq [.wb,
    .grp 1 (reAlt [reStr "external", reStr "public", reStr "customer",
      reStr "client", reStr "visible", reStr "roadmap", reStr "showcase"]),
    .wb]

/-- extractInternalExternalValue: builds the Internal/External multiselect
array for the hardcoded field customfield_26360 (confidence 0.8). -/
def extractInternalExternalValue (description : String) : List ExtractedFieldValue :=
  let lowd := (strLower description).data
  let values :=
    (if (firstMatch internalRe lowd).isSome then ["Internal"] else []) ++
    (if (firstMatch externalRe lowd).isSome then ["External"] else [])
  if values == [] then []
  else [⟨"customfield_26360", .arr values, conf08, "pattern"⟩]

/-- Legacy roadmap regex `/\b(roadmap|public|external|visible|show)\b/`. -/
def roadmapRe : RE :=
  reSeq [.wb,
    .grp 1 (reAlt [reStr "roadmap", reStr "public", reStr "external",
      reStr "visible", reStr "show"]),
    .wb]

/-- extractRoadmapValue: scalar first matched keyword for the hardcoded
field customfield_26360 (confidence 0.8). -/
def extractRoadmapValue (description : String) : List ExtractedFieldValue :=
  match (firstMatch roadmapRe (strLower description).data).bind (getCap 0) with
  | some w => [⟨"customfield_26360", .s w, conf08, "pattern"⟩]
  | none => []

/-- Outcome of one loop iteration of extractWithPatterns: either an
optional entry pushed for the current field, or (the roadmap/include
branch) an early `return` of a fresh result list that abandons the loop,
discarding everything accumulated so far. -/
inductive FieldOutcome where
  | entry (e : Option ExtractedFieldValue)
  | earlyReturn (es : List ExtractedFieldValue)
deriving Repr

/-- The single push site at the bottom of the loop body
(`extractedFields.push({fieldId: field.id, ...})`). -/
def pushEntry (f : JiraField) (r : Option (JValue × ℚ)) : Option ExtractedFieldValue :=
  r.map (fun vc => ⟨f.id, vc.1, vc.2, "pattern"⟩)

/-- One iteration of the extractWithPatterns loop: the if/else-if chain on
the lowercased field name (and hardcoded ids), in source order. -/
def processField (nowYear month0 : Nat) (description : String) (f : JiraField) :
    FieldOutcome :=
  let lowd := strLower description
  let fieldName := strLower f.name
  if strContains fieldName "priority" then
    .entry (pushEntry f (priorityValue lowd f.allowedValues))
  else if strContains fieldName "quarter" || f.id == "customfield_26362" then
    .entry (pushEntry f ((quarterExtract nowYear month0 description f.allowedValues).map
      (fun qc => (JValue.s qc.1, qc.2))))
  else if strContains fieldName "roadmap" || strContains fieldName "include"
      || f.id == "customfield_26360" then
    if f.id == "customfield_26360" then .earlyReturn (extractInternalExternalValue description)
    else .earlyReturn (extractRoadmapValue description)
  else if strContains fieldName "story" && strContains fieldName "point" then
    .entry (pushEntry f (storyPointsValue lowd))
  else if strContains fieldName "component" then
    .entry (pushEntry f (componentValue lowd f.allowedValues))
  else if strContains fieldName "epic" then
    .entry (pushEntry f (epicValue lowd))
  else if strContains fieldName "label" then
    .entry (pushEntry f (labelsValue description))
  else .entry none

/-- The loop of extractWithPatterns with its accumulated result array; an
early return replaces (not extends) the accumulator. -/
def extractLoop (nowYear month0 : Nat) (description : String)
    (acc : List ExtractedFieldValue) : List JiraField → List ExtractedFieldValue
  | [] => acc
  | f :: rest =>
    match processField nowYear month0 description f with
    | .earlyReturn es => es
    | .entry none => extractLoop nowYear month0 description acc rest
    | .entry (some e) => extractLoop nowYear month0 description (acc ++ [e]) rest

/-- extractWithPatterns(description, jiraFields): deterministic pattern
extraction; `nowYear`/`month0` stand for the `new Date()` reads in the
quarter branch. -/
def extractWithPatterns (nowYear month0 : Nat) (description : String)
    (jiraFields : List JiraField) : List ExtractedFieldValue :=
  extractLoop nowYear month0 description [] jiraFields

/-
  Suggestion Ranker (generateSuggestions / generateFieldSuggestion).
-/

/-- JavaScript `value.split(/\s+/)` restricted to the word extraction it
feeds: the maximal non-whitespace runs (a leading empty fragment produced
by JavaScript on leading whitespace is dropped; it never passes the
`length > 2` filter below). -/
def splitWsAux : List Char → List Char → List String
  | [], cur => if cur == [] then [] else [⟨cur.reverse⟩]
  | c :: t, cur =>
    if isSpaceChar c then
      (if cur == [] then splitWsAux t [] else ⟨cur.reverse⟩ :: splitWsAux t [])
    else splitWsAux t (c :: cur)

/-- Whitespace splitting of a string. -/
def splitWs (s : String) : List String := splitWsAux s.data []

/-- Relevance score of one lowercased allowed value against the lowercased
description: +10 verbatim substring, +3 per contained word longer than 2
characters, and the priority-field domain bonuses. -/
def scoreValue (fieldNameLow lowd value : String) : Nat :=
  let base := if strContains lowd value then 10 else 0
  let wordScore := ((splitWs value).filter (fun w => 2 < w.length && strContains lowd w)).length * 3
  let pr :=
    if strContains fieldNameLow "priority" then
      (if strContains lowd "urgent" && strContains value "high" then 5 else 0) +
      (if strContains lowd "important" && strContains value "high" then 3 else 0) +
      (if strContains lowd "later" && strContains value "low" then 3 else 0)
    else 0
  base + wordScore + pr

/-- Stable insertion step of the descending score sort: an element stays
behind strictly higher scores and goes before equal ones (stability, as in
the JavaScript `sort((a, b) => b.score - a.score)`). -/
def insertDesc (x : String × Nat) : List (String × Nat) → List (String × Nat)
  | [] => [x]
  | y :: ys => if x.2 < y.2 then y :: insertDesc x ys else x :: y :: ys

/-- Stable descending insertion sort by score. -/
def sortDesc : List (String × Nat) → List (String × Nat)
  | [] => []
  | x :: xs => insertDesc x (sortDesc xs)

/-- generateSuggestions: score every allowed value, keep positive scores,
sort descending by score (stable, as the JavaScript sort), return the top
five original values. -/
def generateSuggestions (f : JiraField) (description : String) : List String :=
  match f.allowedValues with
  | none => []
  | some vs =>
    let lowd := strLower description
    let scored := vs.filterMap (fun av =>
      let sc := scoreValue (strLower f.name) lowd (strLower av)
      if 0 < sc then some (av, sc) else none)
    ((sortDesc scored).take 5).map (fun p => p.1)

/-- Comma-space join of JavaScript `Array.prototype.join(", ")`. -/
def joinComma : List String → String
  | [] => ""
  | [x] => x
  | x :: xs => x ++ ", " ++ joinComma xs

/-- generateFieldSuggestion: the "Consider: " hint of the top three
suggestions, or the empty string. -/
def generateFieldSuggestion (f : JiraField) (description : String) : String :=
  let s := generateSuggestions f description
  if s == [] then "" else "Consider: " ++ joinComma (s.take 3)

/-
  Extraction Policy Engine (extractFieldValuesWithConfig and helpers).
  The per-field AI extraction (extractWithAI over the single-field list) is
  an oracle parameter: `Except.error` models a thrown provider error, which
  the surrounding try/catch converts into "no candidate" (skipping the
  pattern fallback, exactly as in the source, where the exception jumps
  over the pattern block to the catch). `hasAI` models
  `aiProvider && apiKey` being supplied.
-/

/-- Pattern half of extractSingleFieldValue: runs for methods `ai` (as the
fallback) and `pattern`, gated by the per-field confidence threshold. -/
def patternPart (nowYear month0 : Nat) (d : String) (f : JiraField)
    (cfg : FieldExtractionConfig) : Option ExtractedFieldValue :=
  if cfg.extractionMethod == "ai" || cfg.extractionMethod == "pattern" then
    match extractWithPatterns nowYear month0 d [f] with
    | p :: _ => if cfg.confidenceThreshold ≤ p.confidence then some p else none
    | [] => none
  else none

/-- extractSingleFieldValue: AI first (when configured and available and
its first candidate meets the threshold), then pattern fallback under the
same threshold; a thrown AI error is caught and yields no candidate. -/
def extractSingleFieldValue (nowYear month0 : Nat)
    (ai : Except Unit (List ExtractedFieldValue)) (hasAI : Bool) (d : String)
    (f : JiraField) (cfg : FieldExtractionConfig) : Option ExtractedFieldValue :=
  if cfg.extractionMethod == "ai" && hasAI then
    match ai with
    | .error _ => none
    | .ok [] => patternPart nowYear month0 d f cfg
    | .ok (a :: _) =>
      if cfg.confidenceThreshold ≤ a.confidence then some a
      else patternPart nowYear month0 d f cfg
  else patternPart nowYear month0 d f cfg

/-- shouldAutoApplyField: the global requireConfirmationForAll override,
then the extraction-mode switch. -/
def shouldAutoApplyField (cfg : FieldExtractionConfig) (candidate : ExtractionCandidate)
    (preferences : ExtractionPreferences) : Bool :=
  if preferences.requireConfirmationForAll then false
  else if cfg.extractionMode == "auto-apply" then
    decide (cfg.confidenceThreshold ≤ candidate.confidence)
  else if cfg.extractionMode == "always-confirm" then false
  else if cfg.extractionMode == "manual-only" then false
  else false

/-- Classification outcome of one configured field inside the
extractFieldValuesWithConfig loop. -/
inductive FieldDecision where
  | skipped
  | manual
  | autoApply (value : JValue)
  | confirm (candidate : ExtractionCandidate)
deriving DecidableEq, Repr

/-- The configured-field part of the extractFieldValuesWithConfig loop
body: disabled fields are skipped, manual method/mode fields are manual,
otherwise the extracted candidate is classified by shouldAutoApplyField,
and a missing candidate is manual. -/
def decideConfiguredField (nowYear month0 : Nat)
    (ai : Except Unit (List ExtractedFieldValue)) (hasAI : Bool) (d : String)
    (f : JiraField) (cfg : FieldExtractionConfig)
    (preferences : ExtractionPreferences) : FieldDecision :=
  if !cfg.extractionEnabled then .skipped
  else if cfg.extractionMethod == "manual" || cfg.extractionMode == "manual-only" then .manual
  else
    match extractSingleFieldValue nowYear month0 ai hasAI d f cfg with
    | some v =>
      let candidate : ExtractionCandidate :=
        ⟨f.id, v.value, v.confidence, v.extractionMethod, generateFieldSuggestion f d⟩
      if shouldAutoApplyField cfg candidate preferences then .autoApply v.value
      else .confirm candidate
    | none => .manual

/-- Bucket names for the four result categories. -/
inductive Bucket where
  | skipped
  | manual
  | autoApplied
  | confirmation
deriving DecidableEq, Repr

/-- Bucket of a field decision. -/
def bucketOf : FieldDecision → Bucket
  | .skipped => .skipped
  | .manual => .manual
  | .autoApply _ => .autoApplied
  | .confirm _ => .confirmation

/-- Mutable state threaded through the extractFieldValuesWithConfig loop:
the two Maps (as insertion-ordered association lists), the two arrays, and
the five counters. -/
structure ExtState where
  autoApplied : List (String × JValue)
  requiresConfirmation : List (String × ExtractionCandidate)
  manualFields : List String
  skippedFields : List String
  totalFields : Nat
  autoAppliedCount : Nat
  confirmationCount : Nat
  manualCount : Nat
  skippedCount : Nat
deriving DecidableEq, Repr

/-- JavaScript `Map.prototype.set`: overwrite in place or append. -/
def mapSet {α : Type} (m : List (String × α)) (k : String) (v : α) : List (String × α) :=
  if m.any (fun p => p.1 == k) then m.map (fun p => if p.1 == k then (k, v) else p)
  else m ++ [(k, v)]

/-- extractSingleFieldWithDefaults: AI first when the global default method
is `ai` and a provider is available (no threshold gate), then pattern (no
threshold gate); a thrown AI error is caught and yields no candidate. -/
def extractSingleFieldWithDefaults (nowYear month0 : Nat)
    (ai : Except Unit (List ExtractedFieldValue)) (hasAI : Bool) (d : String)
    (preferences : ExtractionPreferences) (f : JiraField) : Option ExtractedFieldValue :=
  if preferences.defaultMethod == "ai" && hasAI then
    match ai with
    | .error _ => none
    | .ok (a :: _) => some a
    | .ok [] => (extractWithPatterns nowYear month0 d [f]).head?
  else (extractWithPatterns nowYear month0 d [f]).head?

/-- processFieldWithDefaults: the defaults path of the loop. Note that, as
in the source, this helper updates only the buckets and NEVER the summary
counters (they are local variables of the caller that it cannot reach). -/
def processFieldWithDefaults (nowYear month0 : Nat)
    (ai : Except Unit (List ExtractedFieldValue)) (hasAI : Bool) (d : String)
    (preferences : ExtractionPreferences) (st : ExtState) (f : JiraField) : ExtState :=
  match extractSingleFieldWithDefaults nowYear month0 ai hasAI d preferences f with
  | some v =>
    if preferences.globalConfidenceThreshold ≤ v.confidence then
      let candidate : ExtractionCandidate :=
        ⟨f.id, v.value, v.confidence, v.extractionMethod, generateFieldSuggestion f d⟩
      if preferences.requireConfirmationForAll || decide (v.confidence < conf08) then
        { st with requiresConfirmation := mapSet st.requiresConfirmation f.id candidate }
      else
        { st with autoApplied := mapSet st.autoApplied f.id v.value }
    else { st with manualFields := st.manualFields ++ [f.id] }
  | none => { st with manualFields := st.manualFields ++ [f.id] }

/-- One iteration of the extractFieldValuesWithConfig loop over the field
list: skip unconfigured optional fields, count the field, then either the
defaults path or the configured-field decision with its counter update. -/
def processOneField (nowYear month0 : Nat)
    (ai : JiraField → Except Unit (List ExtractedFieldValue)) (hasAI : Bool)
    (d : String) (fieldConfigs : List FieldExtractionConfig)
    (preferences : ExtractionPreferences) (st : ExtState) (f : JiraField) : ExtState :=
  let config := fieldConfigs.find? (fun c => c.jiraFieldId == f.id)
  if !f.required && config.isNone then st
  else
    let st := { st with totalFields := st.totalFields + 1 }
    match config with
    | none => processFieldWithDefaults nowYear month0 (ai f) hasAI d preferences st f
    | some cfg =>
      match decideConfiguredField nowYear month0 (ai f) hasAI d f cfg preferences with
      | .skipped =>
        { st with skippedFields := st.skippedFields ++ [f.id],
                  skippedCount := st.skippedCount + 1 }
      | .manual =>
        { st with manualFields := st.manualFields ++ [f.id],
                  manualCount := st.manualCount + 1 }
      | .autoApply v =>
        { st with autoApplied := mapSet st.autoApplied f.id v,
                  autoAppliedCount := st.autoAppliedCount + 1 }
      | .confirm c =>
        { st with requiresConfirmation := mapSet st.requiresConfirmation f.id c,
                  confirmationCount := st.confirmationCount + 1 }

/-- Empty loop state. -/
def initState : ExtState := ⟨[], [], [], [], 0, 0, 0, 0, 0⟩

/-- The extraction summary record. -/
structure ExtractionSummary where
  totalFields : Nat
  autoAppliedCount : Nat
  confirmationCount : Nat
  manualCount : Nat
  skippedCount : Nat
deriving DecidableEq, Repr

/-- The engine output (interface EnhancedExtractionResult). -/
structure EnhancedExtractionResult where
  autoApplied : List (String × JValue)
  requiresConfirmation : List (String × ExtractionCandidate)
  manualFields : List String
  skippedFields : List String
  extractionSummary : ExtractionSummary
deriving DecidableEq, Repr

/-- extractFieldValuesWithConfig: the orchestration entry point. The field
configs and global preferences (loaded from templateService in the source)
are passed in directly; `ai` is the per-field outcome of
`extractWithAI(description, [field], ...)`. -/
def extractFieldValuesWithConfig (nowYear month0 : Nat)
    (ai : JiraField → Except Unit (List ExtractedFieldValue)) (hasAI : Bool)
    (description : String) (jiraFields : List JiraField)
    (fieldConfigs : List FieldExtractionConfig)
    (preferences : ExtractionPreferences) : EnhancedExtractionResult :=
  let fin := jiraFields.foldl
    (processOneField nowYear month0 ai hasAI description fieldConfigs preferences) initState
  ⟨fin.autoApplied, fin.requiresConfirmation, fin.manualFields, fin.skippedFields,
    ⟨fin.totalFields, fin.autoAppliedCount, fin.confirmationCount, fin.manualCount,
      fin.skippedCount⟩⟩

/-
  AI Extractor (extractWithAI): the network call (callAIProvider) is
  external, so the embedding starts from the raw response string; the
  JavaScript built-in JSON.parse is likewise passed in as a function,
  `none` standing for a parse exception.
-/

/-- JSON values, for provider responses and error payloads. -/
inductive JsonVal where
  | null
  | str (s : String)
  | num (q : ℚ)
  | bool (b : Bool)
  | arr (xs : List JsonVal)
  | obj (kvs : List (String × JsonVal))
deriving Repr

/-- Property lookup on a parsed JSON object. -/
def getKey (kvs : List (String × JsonVal)) (k : String) : Option JsonVal :=
  (kvs.find? (fun p => p.1 == k)).map (fun p => p.2)

/-- One accepted AI extraction entry ({fieldId, value, confidence}). -/
structure AIExtraction where
  fieldId : String
  value : JsonVal
  confidence : ℚ
deriving Repr

/-- Filter of the extractions loop: keep entries with a truthy (nonempty
string) fieldId, a value that is not JSON null (an absent value is
`undefined !== null` in the source and passes), and a numeric confidence
strictly above 0.5. -/
def parseExtraction (e : JsonVal) : Option AIExtraction :=
  match e with
  | .obj kvs =>
    match getKey kvs "fieldId", getKey kvs "confidence" with
    | some (.str fid), some (.num conf) =>
      if fid == "" then none
      else
        match getKey kvs "value" with
        | some .null => none
        | v => if conf05 < conf then some ⟨fid, v.getD .null, conf⟩ else none
    | _, _ => none
  | _ => none

/-- Response-processing part of extractWithAI: an empty or whitespace-only
response throws (the catch block re-throws it), a JSON parse failure is
caught and yields zero extractions, a response without a proper
`extractions` array likewise yields zero extractions. -/
def extractWithAI (jsonParse : String → Option JsonVal) (response : String) :
    Except String (List AIExtraction) :=
  if response.data.all isSpaceChar then .error "Empty response from AI provider"
  else
    match jsonParse response with
    | none => .ok []
    | some result =>
      match result with
      | .obj kvs =>
        match getKey kvs "extractions" with
        | some (.arr es) => .ok (es.filterMap parseExtraction)
        | _ => .ok []
      | _ => .ok []

/-
  Field Catalog Normalizer, error-inference part
  (parseErrorForRequiredFields and helpers from jira-field-service.ts).
-/

/-- The single-quote character, used by the first required-field regex. -/
def squoteC : Char := Char.ofNat 39

/-- guessFieldTypeFromId: field type heuristics over the field id. -/
def guessFieldTypeFromId (fieldId : String) : String :=
  if fieldId == "customfield_26362" then "select"
  else if fieldId == "customfield_26360" then "multiselect"
  else if strContains fieldId "date" || strContains fieldId "time" then "date"
  else if strContains fieldId "number" || strContains fieldId "point" then "number"
  else if strContains fieldId "priority" || strContains fieldId "status"
      || strContains fieldId "type" then "select"
  else if strContains fieldId "description" || strContains fieldId "comment" then "textarea"
  else if strContains fieldId "roadmap" || strContains fieldId "include" then "select"
  else if strContains fieldId "quarter" then "select"
  else "text"

/-- getCommonAllowedValues: synthesized allowed-value lists for well-known
field ids and name patterns; quarter lists use the current year. -/
def getCommonAllowedValues (nowYear : Nat) (fieldId fieldName : String) :
    Option (List String) :=
  let lowerFieldName := strLower fieldName
  let cy := Nat.repr nowYear
  let ny := Nat.repr (nowYear + 1)
  if fieldId == "customfield_26362" || strContains lowerFieldName "delivery quarter" then
    some ["Q1 " ++ cy, "Q2 " ++ cy, "Q3 " ++ cy, "Q4 " ++ cy,
          "Q1 " ++ ny, "Q2 " ++ ny, "Q3 " ++ ny, "Q4 " ++ ny]
  else if fieldId == "customfield_26360" || strContains lowerFieldName "roadmap"
      || strContains lowerFieldName "include on roadmap" then
    some ["Internal", "External"]
  else if fieldId == "issuetype" || strContains lowerFieldName "issue type" then
    some ["Epic", "Story", "Task", "Bug", "Initiative"]
  else if fieldId == "priority" || strContains lowerFieldName "priority" then
    some ["Highest", "High", "Medium", "Low", "Lowest"]
  else if strContains lowerFieldName "quarter" then
    some ["Q1 " ++ cy, "Q2 " ++ cy, "Q3 " ++ cy, "Q4 " ++ cy, "Q1 " ++ ny, "Q2 " ++ ny]
  else if strContains lowerFieldName "yes" || strContains lowerFieldName "no"
      || strContains lowerFieldName "include" then
    some ["Yes", "No"]
  else none

/-- The standardNames display-name table of formatFieldName. -/
def standardNames (fieldId : String) : Option String :=
  if fieldId == "summary" then some "Title"
  else if fieldId == "description" then some "Description"
  else if fieldId == "assignee" then some "Assignee"
  else if fieldId == "reporter" then some "Reporter"
  else if fieldId == "priority" then some "Priority"
  else if fieldId == "issuetype" then some "Issue Type"
  else if fieldId == "project" then some "Project"
  else if fieldId == "fixVersions" then some "Fix Version/s"
  else if fieldId == "versions" then some "Affects Version/s"
  else if fieldId == "components" then some "Component/s"
  else if fieldId == "labels" then some "Labels"
  else if fieldId == "duedate" then some "Due Date"
  else if fieldId == "resolution" then some "Resolution"
  else if fieldId == "status" then some "Status"
  else if fieldId == "created" then some "Created"
  else if fieldId == "updated" then some "Updated"
  else if fieldId == "resolutiondate" then some "Resolved"
  else if fieldId == "worklog" then some "Work Log"
  else if fieldId == "attachment" then some "Attachment"
  else if fieldId == "comment" then some "Comments"
  else if fieldId == "issuelinks" then some "Linked Issues"
  else if fieldId == "subtasks" then some "Sub-tasks"
  else if fieldId == "parent" then some "Parent"
  else if fieldId == "customfield_10000" then some "Story Points"
  else if fieldId == "customfield_10001" then some "Epic Name"
  else if fieldId == "customfield_10002" then some "Epic Link"
  else none

/-- formatFieldName: the table, else capitalize the first character. -/
def formatFieldName (fieldId : String) : String :=
  match standardNames fieldId with
  | some n => n
  | none =>
    match fieldId.data with
    | [] => ""
    | c :: t => ⟨ucChar c :: t⟩

/-- Required-field regex `/Field '([^']+)' is required/gi`. -/
def reqPat1 : RE :=
  reSeq [reStrI "field ", .cls (fun c => c == squoteC),
    .grp 1 (rePlus (.cls (fun c => !(c == squoteC)))), .cls (fun c => c == squoteC),
    reStrI " is required"]

/-- Required-field regex `/([a-zA-Z_][a-zA-Z0-9_]*) is required/gi`. -/
def reqPat2 : RE :=
  reSeq [.grp 1 (.seq (.cls (fun c => c.isAlpha || c == '_'))
    (.star (.cls (fun c => c.isAlpha || c.isDigit || c == '_')))),
    reStrI " is required"]

/-- Required-field regex `/"([^"]+)" is required/gi`. -/
def reqPat3 : RE :=
  reSeq [reStr "\"", .grp 1 (rePlus (.cls (fun c => !(c == '"')))), reStr "\"",
    reStrI " is required"]

/-- The three required-field patterns, in source order. -/
def reqPatterns : List RE := [reqPat1, reqPat2, reqPat3]

/-- The anchored display-name regex `/^([^.]+) is required/i` used on an
errors-object message. -/
def nameReqRe : RE :=
  reSeq [.grp 1 (rePlus (.cls (fun c => !(c == '.')))), reStrI " is required"]

/-- Anchored match (position 0 only), for the `^`-anchored regex. -/
def matchAnchored (re : RE) (s : List Char) : Option Caps :=
  (matchTop re [] s).map (fun r => r.2.2)

/-- One entry of the errors object: kept when the message mentions
"required"; the display name comes from the anchored name match when it
succeeds, else from formatFieldName. -/
def fieldFromErrorsEntry (nowYear : Nat) (fieldId errorMessage : String) :
    Option JiraField :=
  if strContains (strLower errorMessage) "required" then
    let fieldName :=
      match (matchAnchored nameReqRe errorMessage.data).bind (getCap 1) with
      | some nm => nm
      | none => formatFieldName fieldId
    some ⟨fieldId, fieldName, guessFieldTypeFromId fieldId, true,
      getCommonAllowedValues nowYear fieldId fieldName,
      some ("Required field discovered from error: " ++ errorMessage)⟩
  else none

/-- Phase 1 of parseErrorForRequiredFields: the `errors` object (fieldId →
message) of a Jira error payload. Only string messages contribute; an
`errors` value that is not a JSON object contributes nothing (a
non-object payload has no `errors` property at all). -/
def errorsObjectFields (nowYear : Nat) (e : JsonVal) : List JiraField :=
  match e with
  | .obj kvs =>
    match getKey kvs "errors" with
    | some (.obj ekvs) =>
      ekvs.filterMap (fun p =>
        match p.2 with
        | .str msg => fieldFromErrorsEntry nowYear p.1 msg
        | _ => none)
    | _ => []
  | _ => []

/-- All group-1 captures of one global pattern over a message. -/
def execAllIds (re : RE) (msg : List Char) : List String :=
  (allMatches re msg).filterMap (getCap 1)

/-- The pattern loop shared by the errorMessages phase and the raw-string
phase: run the three patterns in order, appending one field per new
(deduplicated) captured field id. -/
def addFieldsFromMessage (nowYear : Nat) (msg : String) (fields : List JiraField) :
    List JiraField :=
  reqPatterns.foldl (fun fs re =>
    (execAllIds re msg.data).foldl (fun fs2 fieldId =>
      if !(fieldId == "") && !(fs2.any (fun f => f.id == fieldId)) then
        fs2 ++ [⟨fieldId, fieldId, guessFieldTypeFromId fieldId, true,
          getCommonAllowedValues nowYear fieldId fieldId,
          some ("Required field discovered from error: " ++ msg)⟩]
      else fs2) fs) fields

/-- Phase 2: the `errorMessages` array of string messages. -/
def errorMessagesFields (nowYear : Nat) (e : JsonVal) (init : List JiraField) :
    List JiraField :=
  match e with
  | .obj kvs =>
    match getKey kvs "errorMessages" with
    | some (.arr msgs) =>
      msgs.foldl (fun fs m =>
        match m with
        | .str msg => addFieldsFromMessage nowYear msg fs
        | _ => fs) init
    | _ => init
  | _ => init

/-- Phase 3: a raw string payload, scanned with the same patterns. -/
def stringFields (nowYear : Nat) (e : JsonVal) (init : List JiraField) :
    List JiraField :=
  match e with
  | .str s => addFieldsFromMessage nowYear s init
  | _ => init

/-- The hardcoded minimal field set pushed when nothing was parseable. -/
def minimalFallbackFields : List JiraField :=
  [⟨"summary", "Summary", "text", true, none, none⟩,
   ⟨"description", "Description", "textarea", false, none, none⟩,
   ⟨"issuetype", "Issue Type", "select", true,
     some ["Epic", "Story", "Task", "Bug", "Initiative"], none⟩,
   ⟨"project", "Project", "select", true, none, none⟩]

/-- Everything parsed from the payload by the three phases. -/
def collectedErrorFields (nowYear : Nat) (e : JsonVal) : List JiraField :=
  stringFields nowYear e (errorMessagesFields nowYear e (errorsObjectFields nowYear e))

/-- parseErrorForRequiredFields: the parsed fields, or the hardcoded
minimal set when none were found. -/
def parseErrorForRequiredFields (nowYear : Nat) (e : JsonVal) : List JiraField :=
  let fields := collectedErrorFields nowYear e
  if fields.isEmpty then minimalFallbackFields else fields

/-
  Theorems for the claims.
-/

/-- C1: the claim that the four buckets partition the processed fields AND
that `totalFields = autoAppliedCount + confirmationCount + manualCount +
skippedCount` on every run, including runs with required fields that have
no per-field configuration, FAILS on the code: on the defaults path,
processFieldWithDefaults assigns buckets but never updates the counters
(which are local variables of the caller it cannot reach). On a run with a
single required, unconfigured field the summary says one total field with
all four counts zero. -/
theorem extractionSummary_counts_mismatch_defaults_path :
    (extractFieldValuesWithConfig 2025 9 (fun _ => .ok []) false ""
        [⟨"f1", "Summary", "text", true, none, none⟩] []
        ⟨"pattern", conf05, false⟩).extractionSummary
      = ⟨1, 0, 0, 0, 0⟩ ∧
    (extractFieldValuesWithConfig 2025 9 (fun _ => .ok []) false ""
        [⟨"f1", "Summary", "text", true, none, none⟩] []
        ⟨"pattern", conf05, false⟩).manualFields = ["f1"] ∧
    (0 + 0 + 0 + 0 : Nat) ≠ 1 := by
  refine ⟨by decide, by decide, by decide⟩

/-- C3: at the very input named by the claim, pattern extraction returns
the raw matched token "critical" (which is not among the allowed values),
not "Highest": mapPriorityValue looks the matched word up as a KEY of the
synonym table, and "critical" is only listed as a synonym under the key
"highest", so the lookup misses and the raw token is returned. -/
theorem priority_critical_maps_to_raw_token :
    extractWithPatterns 2025 9 "this is urgent and critical"
        [⟨"pri", "Priority", "select", false,
          some ["Highest", "High", "Medium", "Low", "Lowest"], none⟩]
      = [⟨"pri", .s "critical", conf08, "pattern"⟩] := by decide

/-- C4: the epic-link rule is dead code: the source matches the
case-sensitive uppercase regex `/\b([A-Z]+-\d+)\b/` against the LOWERCASED
description, so a text containing "PROJ-123" yields no extraction for an
epic field, contradicting the claimed value "PROJ-123" at confidence
0.8. -/
theorem epic_regex_never_matches_lowercased_text :
    extractWithPatterns 2025 9 "Fix PROJ-123 now"
        [⟨"ep1", "Epic Link", "text", false, none, none⟩] = [] := by decide

/-- C2 counterexample: with a field whose name contains "include"/"roadmap"
in the list, extractWithPatterns early-returns the legacy roadmap
extraction, whose entry carries the HARDCODED fieldId "customfield_26360"
— not the id of any input field — so the claimed per-field contract fails
as stated. -/
theorem extractWithPatterns_roadmap_breaks_per_field_contract :
    extractWithPatterns 2025 9 "public launch"
        [⟨"fX", "Include on Roadmap", "select", false, some ["Internal", "External"], none⟩]
      = [⟨"customfield_26360", .s "public", conf08, "pattern"⟩] ∧
    ∀ f ∈ [(⟨"fX", "Include on Roadmap", "select", false,
        some ["Internal", "External"], none⟩ : JiraField)],
      f.id ≠ "customfield_26360" := by
  refine ⟨by decide, by decide⟩

/-- C5 counterexample: the claim includes empty and whitespace-only
responses among those "returning an empty result rather than throwing",
but the source checks `!response || response.trim() === valueless` BEFORE
the JSON parse and THROWS "Empty response from AI provider"; the
surrounding catch re-throws it. So at the empty response the function
errors instead of returning an empty extraction list. -/
theorem extractWithAI_empty_response_throws :
    extractWithAI (fun _ => none) "" = .error "Empty response from AI provider" ∧
    extractWithAI (fun _ => none) "  " = .error "Empty response from AI provider" := by
  exact ⟨rfl, rfl⟩

/-- C5 amended: for every response that is NOT empty or whitespace-only,
a JSON parse failure makes extractWithAI return the empty extraction list
rather than throw. -/
theorem extractWithAI_unparseable_nonempty_returns_empty
    (jsonParse : String → Option JsonVal) (response : String)
    (hne : response.data.all isSpaceChar = false)
    (hp : jsonParse response = none) :
    extractWithAI jsonParse response = .ok [] := by
  unfold extractWithAI
  rw [hne, hp]
  rfl

/-- Witness for the amended C5 theorem at a concrete unparseable
response. -/
theorem extractWithAI_unparseable_nonempty_returns_empty_witness :
    extractWithAI (fun _ => none) "not a json document" = .ok [] :=
  extractWithAI_unparseable_nonempty_returns_empty (fun _ => none)
    "not a json document" (by decide) rfl

/-- C9: whenever the three parsing phases of parseErrorForRequiredFields
extract no field from the payload, the function returns (without any
possibility of throwing — it is total) exactly the hardcoded minimal
list, which contains the four claimed fields: summary (required),
description (optional), issuetype (required, with the enumerated
allowed-value list) and project (required). -/
theorem inferFromError_fallback (nowYear : Nat) (e : JsonVal)
    (h : collectedErrorFields nowYear e = []) :
    parseErrorForRequiredFields nowYear e = minimalFallbackFields ∧
    (⟨"summary", "Summary", "text", true, none, none⟩ : JiraField)
      ∈ parseErrorForRequiredFields nowYear e ∧
    (⟨"description", "Description", "textarea", false, none, none⟩ : JiraField)
      ∈ parseErrorForRequiredFields nowYear e ∧
    (⟨"issuetype", "Issue Type", "select", true,
        some ["Epic", "Story", "Task", "Bug", "Initiative"], none⟩ : JiraField)
      ∈ parseErrorForRequiredFields nowYear e ∧
    (⟨"project", "Project", "select", true, none, none⟩ : JiraField)
      ∈ parseErrorForRequiredFields nowYear e := by
  have hr : parseErrorForRequiredFields nowYear e = minimalFallbackFields := by
    unfold parseErrorForRequiredFields
    rw [h]
    rfl
  refine ⟨hr, ?_, ?_, ?_, ?_⟩ <;> rw [hr] <;> simp [minimalFallbackFields]

/-- Witness for the C9 theorem at three concrete unparseable payloads: the
empty object, the empty string, and a JSON number (an unrecognized
shape). -/
theorem inferFromError_fallback_witness :
    parseErrorForRequiredFields 2025 (.obj []) = minimalFallbackFields ∧
    parseErrorForRequiredFields 2025 (.str "") = minimalFallbackFields ∧
    parseErrorForRequiredFields 2025 (.num 5) = minimalFallbackFields :=
  ⟨(inferFromError_fallback 2025 (.obj []) rfl).1,
   (inferFromError_fallback 2025 (.str "") rfl).1,
   (inferFromError_fallback 2025 (.num 5) rfl).1⟩

/-- C6: the graded quarter fallback chain. First, on the text
"Planning for Q3 2025" with any allowed-value list containing "Q3 2025",
the first explicit pattern yields "Q3 2025" at confidence 0.8. Second,
whenever no explicit quarter pattern produces an accepted value but a
4-digit year token is present, the current calendar quarter combined with
that year is accepted at confidence 0.6 if it is among the allowed
values. Third, when neither is present, the current quarter and current
year are accepted at confidence 0.4 if among the allowed values, and
otherwise no candidate is produced. -/
theorem quarter_fallback_chain (nowYear month0 : Nat) (d : String) (av : List String)
    (y : String) :
    ("Q3 2025" ∈ av →
      quarterExtract nowYear month0 "Planning for Q3 2025" (some av)
        = some ("Q3 2025", conf08)) ∧
    (quarterScanLoop d.data (some av) (Nat.repr nowYear) quarterPatterns = none →
      findYear d = some y →
      ("Q" ++ Nat.repr (currentQuarterOf month0) ++ " " ++ y) ∈ av →
      quarterExtract nowYear month0 d (some av)
        = some ("Q" ++ Nat.repr (currentQuarterOf month0) ++ " " ++ y, conf06)) ∧
    (quarterScanLoop d.data (some av) (Nat.repr nowYear) quarterPatterns = none →
      findYear d = none →
      ("Q" ++ Nat.repr (currentQuarterOf month0) ++ " " ++ Nat.repr nowYear) ∈ av →
      quarterExtract nowYear month0 d (some av)
        = some ("Q" ++ Nat.repr (currentQuarterOf month0) ++ " " ++ Nat.repr nowYear,
            conf04)) ∧
    (quarterScanLoop d.data (some av) (Nat.repr nowYear) quarterPatterns = none →
      findYear d = none →
      ("Q" ++ Nat.repr (currentQuarterOf month0) ++ " " ++ Nat.repr nowYear) ∉ av →
      quarterExtract nowYear month0 d (some av) = none) := by
  refine ⟨?_, ?_, ?_, ?_⟩
  · intro h
    have hA : scanHit qp1 "Planning for Q3 2025".data (Nat.repr nowYear)
        = some "Q3 2025" := rfl
    unfold quarterExtract
    simp only [quarterPatterns, quarterScanLoop, hA, avIncludes]
    simp [h]
  · intro h1 h2 h3
    unfold quarterExtract
    simp only [h1, h2]
    simp [avIncludes, h3]
  · intro h1 h2 h3
    unfold quarterExtract
    simp only [h1, h2]
    simp [avIncludes, h3]
  · intro h1 h2 h3
    unfold quarterExtract
    simp only [h1, h2]
    simp [avIncludes, h3]

/-- Witness for the C6 theorem: all four parts applied at concrete inputs
(October means month0 = 9, current quarter 4). The second 0.6 instance is
the text "First Quarter 2025": the raw-case capture "First" fails the
case-sensitive word conversion, the junk value "QFirst 2025" is rejected
against the allowed values, and the scan loop yields nothing, so the
year fallback fires — as in the source. -/
theorem quarter_fallback_chain_witness :
    quarterExtract 2024 9 "Planning for Q3 2025" (some ["Q2 2025", "Q3 2025"])
      = some ("Q3 2025", conf08) ∧
    quarterExtract 2024 9 "roadmap for 2026" (some ["Q4 2026"])
      = some ("Q4 2026", conf06) ∧
    quarterExtract 2025 9 "First Quarter 2025" (some ["Q1 2025", "Q4 2025"])
      = some ("Q4 2025", conf06) ∧
    quarterExtract 2024 9 "no dates here" (some ["Q4 2024"])
      = some ("Q4 2024", conf04) ∧
    quarterExtract 2024 9 "no dates here" (some ["Q1 2030"]) = none :=
  ⟨(quarter_fallback_chain 2024 9 "" ["Q2 2025", "Q3 2025"] "").1 (by decide),
   (quarter_fallback_chain 2024 9 "roadmap for 2026" ["Q4 2026"] "2026").2.1
     (by decide) (by decide) (by decide),
   (quarter_fallback_chain 2025 9 "First Quarter 2025" ["Q1 2025", "Q4 2025"] "2025").2.1
     (by decide) (by decide) (by decide),
   (quarter_fallback_chain 2024 9 "no dates here" ["Q4 2024"] "").2.2.1
     (by decide) (by decide) (by decide),
   (quarter_fallback_chain 2024 9 "no dates here" ["Q1 2030"] "").2.2.2
     (by decide) (by decide) (by decide)⟩

/-- Every candidate accepted by the pattern half of extractSingleFieldValue
meets the per-field confidence threshold. -/
theorem patternPart_conf (nowYear month0 : Nat) (d : String) (f : JiraField)
    (cfg : FieldExtractionConfig) (v : ExtractedFieldValue)
    (h : patternPart nowYear month0 d f cfg = some v) :
    cfg.confidenceThreshold ≤ v.confidence := by
  unfold patternPart at h
  split at h
  · split at h
    · rename_i p _
      split at h
      · rename_i hle
        cases h
        exact hle
      · exact absurd h (by simp)
    · exact absurd h (by simp)
  · exact absurd h (by simp)

/-- Every candidate accepted by extractSingleFieldValue meets the
per-field confidence threshold (the AI gate and the pattern gate both
compare against the same threshold). -/
theorem extractSingleFieldValue_conf (nowYear month0 : Nat)
    (ai : Except Unit (List ExtractedFieldValue)) (hasAI : Bool) (d : String)
    (f : JiraField) (cfg : FieldExtractionConfig) (v : ExtractedFieldValue)
    (h : extractSingleFieldValue nowYear month0 ai hasAI d f cfg = some v) :
    cfg.confidenceThreshold ≤ v.confidence := by
  unfold extractSingleFieldValue at h
  split at h
  · split at h
    · exact absurd h (by simp)
    · exact patternPart_conf nowYear month0 d f cfg v h
    · split at h
      · rename_i hle
        cases h
        exact hle
      · exact patternPart_conf nowYear month0 d f cfg v h
  · exact patternPart_conf nowYear month0 d f cfg v h

/-- Lowering the threshold preserves acceptance by the pattern half. -/
theorem patternPart_mono (nowYear month0 : Nat) (d : String) (f : JiraField)
    (cfg : FieldExtractionConfig) (t t2 : ℚ) (hle : t ≤ t2)
    (v2 : ExtractedFieldValue)
    (h : patternPart nowYear month0 d f { cfg with confidenceThreshold := t2 } = some v2) :
    patternPart nowYear month0 d f { cfg with confidenceThreshold := t } = some v2 := by
  unfold patternPart at h ⊢
  dsimp only at h ⊢
  by_cases hcond : (cfg.extractionMethod == "ai" || cfg.extractionMethod == "pattern") = true
  · rw [if_pos hcond] at h ⊢
    cases hps : extractWithPatterns nowYear month0 d [f] with
    | nil =>
      rw [hps] at h
      exact absurd h (by simp)
    | cons p ps =>
      rw [hps] at h
      dsimp only at h ⊢
      by_cases hle2 : t2 ≤ p.confidence
      · rw [if_pos hle2] at h
        cases h
        rw [if_pos (le_trans hle hle2)]
      · rw [if_neg hle2] at h
        exact absurd h (by simp)
  · rw [if_neg hcond] at h
    exact absurd h (by simp)

/-- Lowering the threshold preserves acceptance: if extractSingleFieldValue
returns a candidate at threshold `t2`, it returns a candidate at any
`t ≤ t2` (the AI candidate when it is within reach of `t`, else the
pattern one). -/
theorem extractSingleFieldValue_mono (nowYear month0 : Nat)
    (ai : Except Unit (List ExtractedFieldValue)) (hasAI : Bool) (d : String)
    (f : JiraField) (cfg : FieldExtractionConfig) (t t2 : ℚ) (hle : t ≤ t2)
    (v2 : ExtractedFieldValue)
    (h : extractSingleFieldValue nowYear month0 ai hasAI d f
        { cfg with confidenceThreshold := t2 } = some v2) :
    ∃ v, extractSingleFieldValue nowYear month0 ai hasAI d f
        { cfg with confidenceThreshold := t } = some v := by
  unfold extractSingleFieldValue at h ⊢
  dsimp only at h ⊢
  by_cases hcond : (cfg.extractionMethod == "ai" && hasAI) = true
  · rw [if_pos hcond] at h ⊢
    cases ai with
    | error e => exact absurd h (by simp)
    | ok l =>
      cases l with
      | nil => exact ⟨v2, patternPart_mono nowYear month0 d f cfg t t2 hle v2 h⟩
      | cons a as =>
        dsimp only at h ⊢
        by_cases hle2 : t2 ≤ a.confidence
        · rw [if_pos hle2] at h
          cases h
          exact ⟨v2, by rw [if_pos (le_trans hle hle2)]⟩
        · rw [if_neg hle2] at h
          rcases le_or_lt t a.confidence with hta | hta
          · exact ⟨a, by rw [if_pos hta]⟩
          · refine ⟨v2, ?_⟩
            rw [if_neg (not_le.mpr hta)]
            exact patternPart_mono nowYear month0 d f cfg t t2 hle v2 h
  · rw [if_neg hcond] at h ⊢
    exact ⟨v2, patternPart_mono nowYear month0 d f cfg t t2 hle v2 h⟩

/-- shouldAutoApplyField returns true exactly when the global override is
off, the extraction mode is auto-apply, and the candidate confidence meets
the per-field threshold. -/
theorem shouldAutoApplyField_eq_true_iff (cfg : FieldExtractionConfig)
    (cand : ExtractionCandidate) (preferences : ExtractionPreferences) :
    shouldAutoApplyField cfg cand preferences = true ↔
      (preferences.requireConfirmationForAll = false ∧
       (cfg.extractionMode == "auto-apply") = true ∧
       cfg.confidenceThreshold ≤ cand.confidence) := by
  unfold shouldAutoApplyField
  rcases hreq : preferences.requireConfirmationForAll with _ | _
  · by_cases hmode : (cfg.extractionMode == "auto-apply") = true
    · simp [hreq, hmode]
    · simp [hreq, hmode, ite_self]
  · simp [hreq]

/-- C7: threshold monotonicity. Holding the description, the field, the
AI-extractor outcome, the extraction mode and the global preferences
fixed, if a field is auto-applied at the higher threshold `t2`, it is
auto-applied at every lower threshold `t`; equivalently, raising the
threshold can only move the classification from auto-applied toward
confirmation or manual, never the reverse. -/
theorem threshold_monotone (nowYear month0 : Nat)
    (ai : Except Unit (List ExtractedFieldValue)) (hasAI : Bool) (d : String)
    (f : JiraField) (cfg : FieldExtractionConfig)
    (preferences : ExtractionPreferences) (t t2 : ℚ) (hle : t ≤ t2)
    (hauto : bucketOf (decideConfiguredField nowYear month0 ai hasAI d f
        { cfg with confidenceThreshold := t2 } preferences) = .autoApplied) :
    bucketOf (decideConfiguredField nowYear month0 ai hasAI d f
        { cfg with confidenceThreshold := t } preferences) = .autoApplied := by
  unfold decideConfiguredField at hauto ⊢
  dsimp only at hauto ⊢
  by_cases hen : (!cfg.extractionEnabled) = true
  · rw [if_pos hen] at hauto
    exact absurd hauto (by simp [bucketOf])
  · rw [if_neg hen] at hauto ⊢
    by_cases hman : (cfg.extractionMethod == "manual"
        || cfg.extractionMode == "manual-only") = true
    · rw [if_pos hman] at hauto
      exact absurd hauto (by simp [bucketOf])
    · rw [if_neg hman] at hauto ⊢
      cases hx2 : extractSingleFieldValue nowYear month0 ai hasAI d f
          { cfg with confidenceThreshold := t2 } with
      | none =>
        rw [hx2] at hauto
        exact absurd hauto (by simp [bucketOf])
      | some v2 =>
        rw [hx2] at hauto
        dsimp only at hauto
        by_cases hs : shouldAutoApplyField { cfg with confidenceThreshold := t2 }
            ⟨f.id, v2.value, v2.confidence, v2.extractionMethod,
              generateFieldSuggestion f d⟩ preferences = true
        · obtain ⟨hreq, hmode, _⟩ := (shouldAutoApplyField_eq_true_iff _ _ _).mp hs
          obtain ⟨v, hv⟩ := extractSingleFieldValue_mono nowYear month0 ai hasAI d f
            cfg t t2 hle v2 hx2
          rw [hv]
          dsimp only
          have hconf : t ≤ v.confidence :=
            extractSingleFieldValue_conf nowYear month0 ai hasAI d f
              { cfg with confidenceThreshold := t } v hv
          have hs' : shouldAutoApplyField { cfg with confidenceThreshold := t }
              ⟨f.id, v.value, v.confidence, v.extractionMethod,
                generateFieldSuggestion f d⟩ preferences = true :=
            (shouldAutoApplyField_eq_true_iff _ _ _).mpr ⟨hreq, hmode, hconf⟩
          rw [if_pos hs']
          rfl
        · rw [if_neg hs] at hauto
          exact absurd hauto (by simp [bucketOf])

/-- Witness for the C7 theorem: a story-points field auto-applied at
threshold 0.7 (pattern confidence 0.9) stays auto-applied at 0.5. -/
theorem threshold_monotone_witness :
    bucketOf (decideConfiguredField 2025 9 (.ok []) false "takes 8 story points"
        ⟨"sp", "Story Points", "number", false, none, none⟩
        { jiraFieldId := "sp", extractionEnabled := true, extractionMethod := "pattern",
          extractionMode := "auto-apply", confidenceThreshold := conf05 }
        ⟨"pattern", conf05, false⟩) = .autoApplied :=
  threshold_monotone 2025 9 (.ok []) false "takes 8 story points"
    ⟨"sp", "Story Points", "number", false, none, none⟩
    ⟨"sp", true, "pattern", "auto-apply", conf09⟩ ⟨"pattern", conf05, false⟩
    conf05 conf07 (by decide) (by decide)

/-- C10 (implicit): on the configured-field path, a field whose config has
mode auto-apply and extraction enabled never lands in the confirmation
bucket when the global requireConfirmationForAll override is off: the
candidate-acceptance gate of extractSingleFieldValue and the auto-apply
gate of shouldAutoApplyField compare against the same per-field threshold,
so every accepted candidate is auto-applied and the confirmation outcome
is unreachable for such fields. -/
theorem autoapply_mode_never_confirmation (nowYear month0 : Nat)
    (ai : Except Unit (List ExtractedFieldValue)) (hasAI : Bool) (d : String)
    (f : JiraField) (cfg : FieldExtractionConfig)
    (preferences : ExtractionPreferences)
    (hmode : (cfg.extractionMode == "auto-apply") = true)
    (hen : cfg.extractionEnabled = true)
    (hreq : preferences.requireConfirmationForAll = false) :
    bucketOf (decideConfiguredField nowYear month0 ai hasAI d f cfg preferences)
      ≠ .confirmation := by
  unfold decideConfiguredField
  rw [if_neg (by simp [hen])]
  by_cases hman : (cfg.extractionMethod == "manual"
      || cfg.extractionMode == "manual-only") = true
  · rw [if_pos hman]
    simp [bucketOf]
  · rw [if_neg hman]
    cases hx : extractSingleFieldValue nowYear month0 ai hasAI d f cfg with
    | none => simp [bucketOf]
    | some v =>
      dsimp only
      have hconf : cfg.confidenceThreshold ≤ v.confidence :=
        extractSingleFieldValue_conf nowYear month0 ai hasAI d f cfg v hx
      have hs : shouldAutoApplyField cfg
          ⟨f.id, v.value, v.confidence, v.extractionMethod,
            generateFieldSuggestion f d⟩ preferences = true :=
        (shouldAutoApplyField_eq_true_iff _ _ _).mpr ⟨hreq, hmode, hconf⟩
      rw [if_pos hs]
      simp [bucketOf]

/-- Witness for the C10 theorem at a concrete configured field. -/
theorem autoapply_mode_never_confirmation_witness :
    bucketOf (decideConfiguredField 2025 9 (.ok []) false "takes 8 story points"
        ⟨"sp", "Story Points", "number", false, none, none⟩
        ⟨"sp", true, "pattern", "auto-apply", conf05⟩
        ⟨"pattern", conf05, false⟩) ≠ .confirmation :=
  autoapply_mode_never_confirmation 2025 9 (.ok []) false "takes 8 story points"
    ⟨"sp", "Story Points", "number", false, none, none⟩
    ⟨"sp", true, "pattern", "auto-apply", conf05⟩
    ⟨"pattern", conf05, false⟩ (by decide) (by decide) (by decide)

/-- The defaults path never touches the autoApplied map when the global
requireConfirmationForAll override is on. -/
theorem processFieldWithDefaults_auto (nowYear month0 : Nat)
    (ai : Except Unit (List ExtractedFieldValue)) (hasAI : Bool) (d : String)
    (preferences : ExtractionPreferences) (st : ExtState) (f : JiraField)
    (hreq : preferences.requireConfirmationForAll = true) :
    (processFieldWithDefaults nowYear month0 ai hasAI d preferences st f).autoApplied
      = st.autoApplied := by
  unfold processFieldWithDefaults
  cases extractSingleFieldWithDefaults nowYear month0 ai hasAI d preferences f with
  | none => rfl
  | some v =>
    dsimp only
    by_cases hg : preferences.globalConfidenceThreshold ≤ v.confidence
    · rw [if_pos hg, if_pos (by simp [hreq])]
    · rw [if_neg hg]

/-- A configured field is auto-applied only when the global
requireConfirmationForAll override is off. -/
theorem decideConfiguredField_autoApply_reqAll (nowYear month0 : Nat)
    (ai : Except Unit (List ExtractedFieldValue)) (hasAI : Bool) (d : String)
    (f : JiraField) (cfg : FieldExtractionConfig)
    (preferences : ExtractionPreferences) (v : JValue)
    (hd : decideConfiguredField nowYear month0 ai hasAI d f cfg preferences
        = .autoApply v) :
    preferences.requireConfirmationForAll = false := by
  unfold decideConfiguredField at hd
  split at hd
  · exact absurd hd (by simp)
  · split at hd
    · exact absurd hd (by simp)
    · split at hd
      · rename_i w hw
        dsimp only at hd
        split at hd
        · rename_i hs
          exact ((shouldAutoApplyField_eq_true_iff _ _ _).mp hs).1
        · exact absurd hd (by simp)
      · exact absurd hd (by simp)

/-- One loop iteration never touches the autoApplied map when the global
requireConfirmationForAll override is on. -/
theorem processOneField_auto (nowYear month0 : Nat)
    (ai : JiraField → Except Unit (List ExtractedFieldValue)) (hasAI : Bool)
    (d : String) (fieldConfigs : List FieldExtractionConfig)
    (preferences : ExtractionPreferences) (st : ExtState) (f : JiraField)
    (hreq : preferences.requireConfirmationForAll = true) :
    (processOneField nowYear month0 ai hasAI d fieldConfigs preferences st f).autoApplied
      = st.autoApplied := by
  unfold processOneField
  dsimp only
  by_cases hskip : (!f.required
      && (List.find? (fun c => c.jiraFieldId == f.id) fieldConfigs).isNone) = true
  · rw [if_pos hskip]
  · rw [if_neg hskip]
    cases hc : List.find? (fun c => c.jiraFieldId == f.id) fieldConfigs with
    | none =>
      exact processFieldWithDefaults_auto nowYear month0 (ai f) hasAI d preferences
        { st with totalFields := st.totalFields + 1 } f hreq
    | some cfg =>
      dsimp only
      cases hd : decideConfiguredField nowYear month0 (ai f) hasAI d f cfg preferences with
      | skipped => rfl
      | manual => rfl
      | confirm c => rfl
      | autoApply v =>
        have := decideConfiguredField_autoApply_reqAll nowYear month0 (ai f) hasAI d
          f cfg preferences v hd
        rw [hreq] at this
        exact absurd this (by simp)

/-- C8: with requireConfirmationForAll set, the autoApplied bucket of every
extraction run is empty — on the configured path shouldAutoApplyField
returns false outright, and on the defaults path the confirmation branch
is forced — regardless of per-field modes, thresholds and candidate
confidences. -/
theorem requireConfirmationForAll_empties_autoApplied (nowYear month0 : Nat)
    (ai : JiraField → Except Unit (List ExtractedFieldValue)) (hasAI : Bool)
    (description : String) (jiraFields : List JiraField)
    (fieldConfigs : List FieldExtractionConfig)
    (preferences : ExtractionPreferences)
    (hreq : preferences.requireConfirmationForAll = true) :
    (extractFieldValuesWithConfig nowYear month0 ai hasAI description jiraFields
        fieldConfigs preferences).autoApplied = [] := by
  unfold extractFieldValuesWithConfig
  dsimp only
  have hfold : ∀ (fs : List JiraField) (st : ExtState),
      (fs.foldl (processOneField nowYear month0 ai hasAI description fieldConfigs
        preferences) st).autoApplied = st.autoApplied := by
    intro fs
    induction fs with
    | nil => intro st; rfl
    | cons f rest ih =>
      intro st
      rw [List.foldl_cons, ih,
        processOneField_auto nowYear month0 ai hasAI description fieldConfigs
          preferences st f hreq]
  exact hfold jiraFields initState

/-- Witness for the C8 theorem: a run with an auto-apply configured field
whose candidate passes every threshold still lands in confirmation, and
the autoApplied bucket is empty. -/
theorem requireConfirmationForAll_empties_autoApplied_witness :
    (extractFieldValuesWithConfig 2025 9 (fun _ => .ok []) false "takes 8 story points"
        [⟨"sp", "Story Points", "number", false, none, none⟩]
        [⟨"sp", true, "pattern", "auto-apply", conf05⟩]
        ⟨"pattern", conf05, true⟩).autoApplied = [] :=
  requireConfirmationForAll_empties_autoApplied 2025 9 (fun _ => .ok []) false
    "takes 8 story points" [⟨"sp", "Story Points", "number", false, none, none⟩]
    [⟨"sp", true, "pattern", "auto-apply", conf05⟩] ⟨"pattern", conf05, true⟩ rfl

/-- The per-field entry produced by one loop iteration when it does not
early-return (the roadmap/include branch aside, extractWithPatterns
contributes at most this one optional entry per field). -/
def patternEntryOf (nowYear month0 : Nat) (d : String) (f : JiraField) :
    Option ExtractedFieldValue :=
  match processField nowYear month0 d f with
  | .entry e => e
  | .earlyReturn _ => none

/-- An early return can only come from the roadmap/include branch. -/
theorem processField_earlyReturn_cond (nowYear month0 : Nat) (d : String)
    (f : JiraField) (es : List ExtractedFieldValue)
    (hpf : processField nowYear month0 d f = .earlyReturn es) :
    (strContains (strLower f.name) "roadmap" || strContains (strLower f.name) "include"
      || f.id == "customfield_26360") = true := by
  unfold processField at hpf
  dsimp only at hpf
  by_cases h1 : strContains (strLower f.name) "priority" = true
  · rw [if_pos h1] at hpf
    exact absurd hpf (by simp)
  · rw [if_neg h1] at hpf
    by_cases h2 : (strContains (strLower f.name) "quarter"
        || f.id == "customfield_26362") = true
    · rw [if_pos h2] at hpf
      exact absurd hpf (by simp)
    · rw [if_neg h2] at hpf
      by_cases h3 : (strContains (strLower f.name) "roadmap"
          || strContains (strLower f.name) "include" || f.id == "customfield_26360") = true
      · exact h3
      · rw [if_neg h3] at hpf
        by_cases h4 : (strContains (strLower f.name) "story"
            && strContains (strLower f.name) "point") = true
        · rw [if_pos h4] at hpf
          exact absurd hpf (by simp)
        · rw [if_neg h4] at hpf
          by_cases h5 : strContains (strLower f.name) "component" = true
          · rw [if_pos h5] at hpf
            exact absurd hpf (by simp)
          · rw [if_neg h5] at hpf
            by_cases h6 : strContains (strLower f.name) "epic" = true
            · rw [if_pos h6] at hpf
              exact absurd hpf (by simp)
            · rw [if_neg h6] at hpf
              by_cases h7 : strContains (strLower f.name) "label" = true
              · rw [if_pos h7] at hpf
                exact absurd hpf (by simp)
              · rw [if_neg h7] at hpf
                exact absurd hpf (by simp)

/-- Every entry outcome of one loop iteration is either no entry or an
entry built by the single push site (and hence carrying `f.id`). -/
theorem processField_entry_shape (nowYear month0 : Nat) (d : String) (f : JiraField)
    (o : Option ExtractedFieldValue)
    (hpf : processField nowYear month0 d f = .entry o) :
    o = none ∨ ∃ r, o = pushEntry f r := by
  unfold processField at hpf
  dsimp only at hpf
  by_cases h1 : strContains (strLower f.name) "priority" = true
  · rw [if_pos h1] at hpf
    cases hpf
    exact Or.inr ⟨_, rfl⟩
  · rw [if_neg h1] at hpf
    by_cases h2 : (strContains (strLower f.name) "quarter"
        || f.id == "customfield_26362") = true
    · rw [if_pos h2] at hpf
      cases hpf
      exact Or.inr ⟨_, rfl⟩
    · rw [if_neg h2] at hpf
      by_cases h3 : (strContains (strLower f.name) "roadmap"
          || strContains (strLower f.name) "include" || f.id == "customfield_26360") = true
      · rw [if_pos h3] at hpf
        split at hpf
        · exact absurd hpf (by simp)
        · exact absurd hpf (by simp)
      · rw [if_neg h3] at hpf
        by_cases h4 : (strContains (strLower f.name) "story"
            && strContains (strLower f.name) "point") = true
        · rw [if_pos h4] at hpf
          cases hpf
          exact Or.inr ⟨_, rfl⟩
        · rw [if_neg h4] at hpf
          by_cases h5 : strContains (strLower f.name) "component" = true
          · rw [if_pos h5] at hpf
            cases hpf
            exact Or.inr ⟨_, rfl⟩
          · rw [if_neg h5] at hpf
            by_cases h6 : strContains (strLower f.name) "epic" = true
            · rw [if_pos h6] at hpf
              cases hpf
              exact Or.inr ⟨_, rfl⟩
            · rw [if_neg h6] at hpf
              by_cases h7 : strContains (strLower f.name) "label" = true
              · rw [if_pos h7] at hpf
                cases hpf
                exact Or.inr ⟨_, rfl⟩
              · rw [if_neg h7] at hpf
                cases hpf
                exact Or.inl rfl

/-- Every entry contributed by a non-early-returning iteration carries the
id of the very field being processed (the single push site uses
`field.id`). -/
theorem patternEntryOf_fieldId (nowYear month0 : Nat) (d : String) (f : JiraField)
    (e : ExtractedFieldValue) (h : patternEntryOf nowYear month0 d f = some e) :
    e.fieldId = f.id := by
  unfold patternEntryOf at h
  cases hpf : processField nowYear month0 d f with
  | earlyReturn es =>
    rw [hpf] at h
    exact absurd h (by simp)
  | entry o =>
    rw [hpf] at h
    dsimp only at h
    rcases processField_entry_shape nowYear month0 d f o hpf with hnone | ⟨r, hr⟩
    · rw [hnone] at h
      exact absurd h (by simp)
    · rw [hr] at h
      cases r with
      | none => exact absurd h (by simp [pushEntry])
      | some vc =>
        simp only [pushEntry, Option.map_some', Option.some.injEq] at h
        rw [← h]

/-- Under the no-roadmap-field hypothesis the loop is a plain filterMap
over the field list on top of the accumulator. -/
theorem extractLoop_filterMap (nowYear month0 : Nat) (d : String) :
    ∀ (fields : List JiraField) (acc : List ExtractedFieldValue),
    (∀ f ∈ fields,
      (strContains (strLower f.name) "roadmap" || strContains (strLower f.name) "include"
        || f.id == "customfield_26360") = false) →
    extractLoop nowYear month0 d acc fields
      = acc ++ fields.filterMap (patternEntryOf nowYear month0 d) := by
  intro fields
  induction fields with
  | nil => intro acc h; simp [extractLoop]
  | cons f rest ih =>
    intro acc h
    have hf := h f (by simp)
    have hrest : ∀ g ∈ rest,
        (strContains (strLower g.name) "roadmap" || strContains (strLower g.name) "include"
          || g.id == "customfield_26360") = false := by
      intro g hg
      exact h g (by simp [hg])
    unfold extractLoop
    cases hpf : processField nowYear month0 d f with
    | earlyReturn es =>
      have := processField_earlyReturn_cond nowYear month0 d f es hpf
      rw [hf] at this
      exact absurd this (by simp)
    | entry e =>
      cases e with
      | none =>
        dsimp only
        rw [ih acc hrest]
        have hpe : patternEntryOf nowYear month0 d f = none := by
          unfold patternEntryOf
          rw [hpf]
        rw [List.filterMap_cons, hpe]
      | some x =>
        dsimp only
        rw [ih (acc ++ [x]) hrest]
        have hpe : patternEntryOf nowYear month0 d f = some x := by
          unfold patternEntryOf
          rw [hpf]
        rw [List.filterMap_cons, hpe]
        simp

/-- C2 amended: for field lists in which no field has a name containing
"roadmap" or "include" and no field has the hardcoded id
customfield_26360, extractWithPatterns is exactly a per-field filterMap —
at most one entry per input field, in field order, each entry carrying
that field's id, and a field producing no match is merely omitted without
affecting the entries of the other fields. (The counterexample theorem
shows this fails as soon as such a field is present: the loop
early-returns a list for the hardcoded field customfield_26360 and
discards every other field's entry.) -/
theorem extractWithPatterns_per_field_contract (nowYear month0 : Nat) (d : String)
    (fields : List JiraField)
    (h : ∀ f ∈ fields,
      (strContains (strLower f.name) "roadmap" || strContains (strLower f.name) "include"
        || f.id == "customfield_26360") = false) :
    extractWithPatterns nowYear month0 d fields
      = fields.filterMap (patternEntryOf nowYear month0 d) ∧
    ∀ f e, patternEntryOf nowYear month0 d f = some e → e.fieldId = f.id := by
  constructor
  · have := extractLoop_filterMap nowYear month0 d fields [] h
    simpa [extractWithPatterns] using this
  · intro f e he
    exact patternEntryOf_fieldId nowYear month0 d f e he

/-- Witness for the amended C2 theorem on a concrete two-field list: the
priority field contributes its entry and the component field (no allowed
value matched) is omitted. -/
theorem extractWithPatterns_per_field_contract_witness :
    extractWithPatterns 2025 9 "critical fix"
        [⟨"pri", "Priority", "select", false, none, none⟩,
         ⟨"cmp", "Component/s", "select", false, some ["Billing"], none⟩]
      = [⟨"pri", "Priority", "select", false, none, none⟩,
         ⟨"cmp", "Component/s", "select", false, some ["Billing"], none⟩].filterMap
          (patternEntryOf 2025 9 "critical fix") :=
  (extractWithPatterns_per_field_contract 2025 9 "critical fix"
    [⟨"pri", "Priority", "select", false, none, none⟩,
     ⟨"cmp", "Component/s", "select", false, some ["Billing"], none⟩]
    (by decide)).1
